import Mathlib

/-!
# Verification of the YCbCr → RGB conversion pipeline (`try334.py`)

The script builds a full-resolution RGB image from a luma plane `Y` and two
2x-subsampled chroma planes `Cb`, `Cr`:

* the chroma planes are upsampled with linear (bilinear) interpolation
  (`resize(subsample, kernel="linear")`),
* the three planes are band-joined, level-shifted by `[16, 128, 128]`,
* recombined through the fixed 3x3 matrix `ycc2rgb`,
* and tagged with the sRGB color interpretation.

The resampling and per-pixel matrix arithmetic are performed by the pyvips
library that the script calls into; those operations are modelled here from
the specification (exact rational arithmetic stands in for floating point:
every "within tolerance" clause is settled by exact equality).  The script
itself (pipeline wiring, the `ycc2rgb` constants, the offsets, the benchmark
harness) is embedded directly from the source.
-/

/-- A 2D dense grid of numeric samples with explicit width and height.
Samples are total functions of the coordinates; only `x < width`,
`y < height` are meaningful. -/
structure Plane where
  width : Nat
  height : Nat
  data : Nat → Nat → ℚ

/-- Color interpretation metadata attached to a multi-band image:
purely descriptive, never changes sample values.  `srgb` models the
script's `copy(interpretation="srgb")`. -/
inductive Interpretation where
  | srgb
  | multiband
deriving DecidableEq

/-- An ordered sequence of co-registered equal-sized bands plus a color
interpretation tag. -/
structure MultiBandImage where
  width : Nat
  height : Nat
  bands : List (Nat → Nat → ℚ)
  interpretation : Interpretation

/-- Sample of band `i` at pixel `(x, y)`. -/
def MultiBandImage.sampleAt (img : MultiBandImage) (i x y : Nat) : ℚ :=
  (img.bands.getD i (fun _ _ => 0)) x y

/-- Clamp an integer coordinate into the valid index range `[0, n-1]`
(edge-replicate boundary policy). -/
def clampIdx (n : Nat) (i : Int) : Nat :=
  (max 0 (min i ((n : Int) - 1))).toNat

/-- Linear interpolation between `a` and `b` with weight `t`. -/
def lerp (a b t : ℚ) : ℚ := (1 - t) * a + t * b

/-- Pixel-center-aligned source coordinate for output coordinate `o` under
upsampling factor `F`: `(o + 1/2)/F - 1/2`. -/
def srcCoord (F o : Nat) : ℚ := ((o : ℚ) + 1/2) / (F : ℚ) - 1/2

/-- Bilinear interpolation of plane `p` at fractional source coordinates
`(sx, sy)`, reading the four nearest samples with indices clamped to the
plane, as two horizontal lerps followed by a vertical lerp. -/
def bilinearAt (p : Plane) (sx sy : ℚ) : ℚ :=
  let x0 : Int := Int.floor sx
  let y0 : Int := Int.floor sy
  let fx : ℚ := sx - (x0 : ℚ)
  let fy : ℚ := sy - (y0 : ℚ)
  let v00 := p.data (clampIdx p.width x0) (clampIdx p.height y0)
  let v10 := p.data (clampIdx p.width (x0 + 1)) (clampIdx p.height y0)
  let v01 := p.data (clampIdx p.width x0) (clampIdx p.height (y0 + 1))
  let v11 := p.data (clampIdx p.width (x0 + 1)) (clampIdx p.height (y0 + 1))
  lerp (lerp v00 v10 fx) (lerp v01 v11 fx) fy

/-- Modelled from the spec: the chroma upsampler.  In the script this is
`plane.resize(factor, kernel="linear")`, implemented inside the pyvips /
libvips dependency rather than in this repository; modelled from spec §4.1:
output is `W*factor` by `H*factor`, each output sample is the bilinear
interpolation of the four nearest input samples at the pixel-center-aligned
source coordinate, with out-of-range coordinates clamped to the edge. -/
def upsample (p : Plane) (F : Nat) : Plane :=
  { width := p.width * F
    height := p.height * F
    data := fun x y => bilinearAt p (srcCoord F x) (srcCoord F y) }

/-- Typed error of the transform stage. -/
inductive TransformError where
  | DimensionMismatch
deriving DecidableEq

/-- Entry `(i, j)` of a matrix given as a list of rows (missing entries
read as 0, matching out-of-range list access conventions). -/
def mEntry (M : List (List ℚ)) (i j : Nat) : ℚ :=
  (M.getD i []).getD j 0

/-- The fixed YCbCr → RGB recombination matrix of the script (exact
rational values of the source constants 1.402, -0.344136, -0.714136,
1.772). -/
def ycc2rgb : List (List ℚ) :=
  [[1, 0, 1402/1000],
   [1, -(344136/1000000), -(714136/1000000)],
   [1, 1772/1000, 0]]

/-- Modelled from the spec: the color transform engine.  In the script this
is `Y.bandjoin([Cb, Cr]) - [16, 128, 128]` followed by `.recomb(ycc2rgb)`
and `.copy(interpretation="srgb")`; band join, elementwise subtraction and
recombination are performed by the pyvips / libvips dependency, modelled
from spec §4.2: check that all three planes share width and height (else
`DimensionMismatch`), interleave the bands in the order `[Y, Cb, Cr]`,
subtract the offsets per band, apply the matrix per pixel with no clamping,
and tag the 3-band result sRGB. -/
def transform (Y Cb Cr : Plane) (M : List (List ℚ)) (offsets : List ℚ) :
    Except TransformError MultiBandImage :=
  if Y.width = Cb.width ∧ Y.height = Cb.height ∧
     Y.width = Cr.width ∧ Y.height = Cr.height then
    let s0 : Nat → Nat → ℚ := fun x y => Y.data x y - offsets.getD 0 0
    let s1 : Nat → Nat → ℚ := fun x y => Cb.data x y - offsets.getD 1 0
    let s2 : Nat → Nat → ℚ := fun x y => Cr.data x y - offsets.getD 2 0
    let out : Nat → Nat → Nat → ℚ := fun i x y =>
      mEntry M i 0 * s0 x y + mEntry M i 1 * s1 x y + mEntry M i 2 * s2 x y
    .ok { width := Y.width
          height := Y.height
          bands := [out 0, out 1, out 2]
          interpretation := .srgb }
  else
    .error .DimensionMismatch

/-- Source: `shift = 1`. -/
def shift : Nat := 1

/-- Source: `subsample = 1 << shift`. -/
def subsample : Nat := 2 ^ shift

/-- Source `try2`: upsample both chroma planes by `subsample` with linear
interpolation, band-join with Y, level-shift by `[16, 128, 128]`, recombine
with `ycc2rgb` and tag sRGB; returns the in-memory image. -/
def try2 (Y Cb Cr : Plane) : Except TransformError MultiBandImage :=
  let Cb2 := upsample Cb subsample
  let Cr2 := upsample Cr subsample
  transform Y Cb2 Cr2 ycc2rgb [16, 128, 128]

/-- Modelled from the spec: `write_to_binary` (serialization of the final
pixel buffer to bytes) is performed by the pyvips dependency; the spec
treats it as an external concern that encodes the pixel data.  Modelled as
flattening the samples row-major, band-interleaved. -/
def serializeImage (img : MultiBandImage) : List ℚ :=
  ((List.range img.height).map (fun y =>
    ((List.range img.width).map (fun x =>
      (List.range img.bands.length).map (fun i => img.sampleAt i x y))).flatten)).flatten

/-- Source `try3`: same pipeline as `try2`, then serialize the resulting
image to bytes with `write_to_binary`. -/
def try3 (Y Cb Cr : Plane) : Except TransformError (List ℚ) :=
  let Cb2 := upsample Cb subsample
  let Cr2 := upsample Cr subsample
  match transform Y Cb2 Cr2 ycc2rgb [16, 128, 128] with
  | .ok rgb => .ok (serializeImage rgb)
  | .error e => .error e

/-- Identifier of the two candidate pipeline functions the benchmark
harness can be handed. -/
inductive PipelineFn where
  | fnTry2
  | fnTry3
deriving DecidableEq

/-- The two `bench` invocations at the bottom of the script, in source
order, as (message, function passed): the source passes `try2` to both
(`bench("linear", try2, ...)` and `bench("plus write_to_binary", try2, ...)`). -/
def benchCalls : List (String × PipelineFn) :=
  [("linear", PipelineFn.fnTry2),
   ("plus write_to_binary", PipelineFn.fnTry2)]

/-- A plane of constant sample value. -/
def constPlane (w h : Nat) (c : ℚ) : Plane :=
  { width := w, height := h, data := fun _ _ => c }

/-- The unclamped per-pixel linear combination the transform is specified
to compute for band `i` at `(x, y)`. -/
def rawCombo (M : List (List ℚ)) (offsets : List ℚ) (Y Cb Cr : Plane)
    (i x y : Nat) : ℚ :=
  mEntry M i 0 * (Y.data x y - offsets.getD 0 0) +
  mEntry M i 1 * (Cb.data x y - offsets.getD 1 0) +
  mEntry M i 2 * (Cr.data x y - offsets.getD 2 0)

/-- A small concrete 2x2 test plane with pairwise distinct samples. -/
def tp : Plane :=
  { width := 2, height := 2, data := fun x y => (x : ℚ) + 2 * (y : ℚ) }

lemma clampIdx_natCast (n x : Nat) (h : x < n) : clampIdx n (x : Int) = x := by
  unfold clampIdx
  omega

lemma srcCoord_one (o : Nat) : srcCoord 1 o = (o : ℚ) := by
  unfold srcCoord
  norm_num

lemma bilinearAt_const (w h : Nat) (c : ℚ) (sx sy : ℚ) :
    bilinearAt (constPlane w h c) sx sy = c := by
  simp only [bilinearAt, lerp, constPlane]
  ring

lemma transform_eq_ok (Y Cb Cr : Plane) (M : List (List ℚ)) (off : List ℚ)
    (h : Y.width = Cb.width ∧ Y.height = Cb.height ∧
         Y.width = Cr.width ∧ Y.height = Cr.height) :
    transform Y Cb Cr M off =
      .ok { width := Y.width
            height := Y.height
            bands := [fun x y => rawCombo M off Y Cb Cr 0 x y,
                      fun x y => rawCombo M off Y Cb Cr 1 x y,
                      fun x y => rawCombo M off Y Cb Cr 2 x y]
            interpretation := .srgb } := by
  unfold transform rawCombo
  rw [if_pos h]

/-- C1: for every input plane and every positive power-of-two factor `F`,
each output sample of `upsample` at integer coordinate `(x, y)` is the
bilinear interpolation of the four nearest input samples, with input sample
centers mapped to output coordinates by `input_coord = (output_coord + 0.5)/F
- 0.5`, and with coordinates outside `[0, W-1]` (resp. `[0, H-1]`) clamped to
the nearest valid edge sample: indices below 0 clamp to 0, indices above
`W-1` clamp to `W-1`, and in-range indices are used unchanged. -/
theorem upsample_bilinear_pixel_center (p : Plane) (F : Nat)
    (hF : ∃ k : Nat, F = 2 ^ k) (x y : Nat) :
    ((upsample p F).data x y =
      (1 - (srcCoord F x - (Int.floor (srcCoord F x) : ℚ))) *
        (1 - (srcCoord F y - (Int.floor (srcCoord F y) : ℚ))) *
        p.data (clampIdx p.width (Int.floor (srcCoord F x)))
               (clampIdx p.height (Int.floor (srcCoord F y))) +
      (srcCoord F x - (Int.floor (srcCoord F x) : ℚ)) *
        (1 - (srcCoord F y - (Int.floor (srcCoord F y) : ℚ))) *
        p.data (clampIdx p.width (Int.floor (srcCoord F x) + 1))
               (clampIdx p.height (Int.floor (srcCoord F y))) +
      (1 - (srcCoord F x - (Int.floor (srcCoord F x) : ℚ))) *
        (srcCoord F y - (Int.floor (srcCoord F y) : ℚ)) *
        p.data (clampIdx p.width (Int.floor (srcCoord F x)))
               (clampIdx p.height (Int.floor (srcCoord F y) + 1)) +
      (srcCoord F x - (Int.floor (srcCoord F x) : ℚ)) *
        (srcCoord F y - (Int.floor (srcCoord F y) : ℚ)) *
        p.data (clampIdx p.width (Int.floor (srcCoord F x) + 1))
               (clampIdx p.height (Int.floor (srcCoord F y) + 1))) ∧
    (∀ i : Int, i < 0 → clampIdx p.width i = 0) ∧
    (∀ i : Int, (p.width : Int) - 1 < i → clampIdx p.width i = p.width - 1) ∧
    (∀ i : Int, 0 ≤ i → i ≤ (p.width : Int) - 1 → (clampIdx p.width i : Int) = i) := by
  refine ⟨?_, ?_, ?_, ?_⟩
  · show bilinearAt p (srcCoord F x) (srcCoord F y) = _
    simp only [bilinearAt, lerp]
    ring
  · intro i hi
    unfold clampIdx
    omega
  · intro i hi
    unfold clampIdx
    omega
  · intro i h0 h1
    unfold clampIdx
    omega

/-- Witness for C1 at the concrete plane `tp`, factor 2, output pixel
`(1, 1)`: the hypothesis holds and the interpolated sample evaluates. -/
theorem upsample_bilinear_pixel_center_witness :
    (∃ k : Nat, (2 : Nat) = 2 ^ k) ∧ (upsample tp 2).data 1 1 = 3/4 := by
  refine ⟨⟨1, rfl⟩, ?_⟩
  rw [(upsample_bilinear_pixel_center tp 2 ⟨1, rfl⟩ 1 1).1]
  norm_num [srcCoord, clampIdx, tp]

/-- C4: for every plane of width `W` and height `H` and every factor
`F > 0`, `upsample` yields a plane of width `W*F` and height `H*F`. -/
theorem upsample_dimension_law (p : Plane) (F : Nat) (hF : 0 < F) :
    (upsample p F).width = p.width * F ∧ (upsample p F).height = p.height * F :=
  ⟨rfl, rfl⟩

/-- Witness for C4 at the concrete plane `tp` and factor 2. -/
theorem upsample_dimension_law_witness :
    0 < 2 ∧ (upsample tp 2).width = tp.width * 2 ∧
      (upsample tp 2).height = tp.height * 2 :=
  ⟨by decide, upsample_dimension_law tp 2 (by decide)⟩

/-- C5: `upsample` at factor 1 is the identity: every in-range sample of
`upsample(P, 1)` equals the corresponding sample of `P` (exactly, hence
within any floating-point tolerance). -/
theorem upsample_factor_one_identity (p : Plane) (x y : Nat)
    (hx : x < p.width) (hy : y < p.height) :
    (upsample p 1).data x y = p.data x y := by
  show bilinearAt p (srcCoord 1 x) (srcCoord 1 y) = p.data x y
  rw [srcCoord_one, srcCoord_one]
  simp only [bilinearAt, lerp, Int.floor_natCast, Int.cast_natCast]
  rw [clampIdx_natCast p.width x hx, clampIdx_natCast p.height y hy]
  ring

/-- Witness for C5 at the concrete plane `tp`, pixel `(1, 0)`. -/
theorem upsample_factor_one_identity_witness :
    1 < tp.width ∧ 0 < tp.height ∧ (upsample tp 1).data 1 0 = tp.data 1 0 :=
  ⟨by decide, by decide,
   upsample_factor_one_identity tp 1 0 (by decide) (by decide)⟩

/-- C2: on a constant input where every pixel has Y=16, Cb=128, Cr=255, the
transform with the standard matrix and offsets `[16, 128, 128]` produces at
every pixel the unclamped values `R = 1.402*127`, `G = -0.714136*127` and
`B = 0` (exactly, hence within floating-point tolerance). -/
theorem transform_known_point_maxCr (w h x y : Nat) :
    ∃ img, transform (constPlane w h 16) (constPlane w h 128) (constPlane w h 255)
        ycc2rgb [16, 128, 128] = .ok img ∧
      img.sampleAt 0 x y = 1402/1000 * 127 ∧
      img.sampleAt 1 x y = -(714136/1000000) * 127 ∧
      img.sampleAt 2 x y = 0 := by
  refine ⟨_, transform_eq_ok _ _ _ _ _ ⟨rfl, rfl, rfl, rfl⟩, ?_, ?_, ?_⟩ <;>
    norm_num [MultiBandImage.sampleAt, rawCombo, mEntry, ycc2rgb, constPlane]

/-- C3: on a solid-color input where every pixel has Y=116, Cb=128, Cr=128,
the transform with the standard matrix and offsets `[16, 128, 128]` yields
R=G=B=100 at every pixel (exactly, hence within the 0.01 tolerance): the
offsets cancel the chroma and the all-ones first matrix column passes the
shifted luma through. -/
theorem transform_solid_color_gray (w h x y : Nat) :
    ∃ img, transform (constPlane w h 116) (constPlane w h 128) (constPlane w h 128)
        ycc2rgb [16, 128, 128] = .ok img ∧
      img.sampleAt 0 x y = 100 ∧
      img.sampleAt 1 x y = 100 ∧
      img.sampleAt 2 x y = 100 := by
  refine ⟨_, transform_eq_ok _ _ _ _ _ ⟨rfl, rfl, rfl, rfl⟩, ?_, ?_, ?_⟩ <;>
    norm_num [MultiBandImage.sampleAt, rawCombo, mEntry, ycc2rgb, constPlane]

/-- C6: whenever the Y, Cb, Cr planes do not all share identical width and
height, the transform fails with `DimensionMismatch`; no image is produced,
so nothing is silently cropped or padded. -/
theorem transform_dimension_mismatch (Y Cb Cr : Plane)
    (M : List (List ℚ)) (off : List ℚ)
    (h : ¬(Y.width = Cb.width ∧ Y.height = Cb.height ∧
           Y.width = Cr.width ∧ Y.height = Cr.height)) :
    transform Y Cb Cr M off = .error .DimensionMismatch := by
  unfold transform
  rw [if_neg h]

/-- Witness for C6: Y of size 8x8 with a not-upsampled 4x4 Cb (and Cr). -/
theorem transform_dimension_mismatch_witness :
    ¬((constPlane 8 8 0).width = (constPlane 4 4 0).width ∧
      (constPlane 8 8 0).height = (constPlane 4 4 0).height ∧
      (constPlane 8 8 0).width = (constPlane 4 4 0).width ∧
      (constPlane 8 8 0).height = (constPlane 4 4 0).height) ∧
    transform (constPlane 8 8 0) (constPlane 4 4 0) (constPlane 4 4 0)
      ycc2rgb [16, 128, 128] = .error .DimensionMismatch :=
  ⟨by decide, transform_dimension_mismatch _ _ _ _ _ (by decide)⟩

/-- C7: the transform never clamps or rescales: when the per-pixel linear
combination falls outside `[0, 255]` (negative or above 255), the call still
succeeds and the out-of-range value is returned as-is. -/
theorem transform_unclamped_out_of_range (Y Cb Cr : Plane)
    (M : List (List ℚ)) (off : List ℚ) (i x y : Nat)
    (h : Y.width = Cb.width ∧ Y.height = Cb.height ∧
         Y.width = Cr.width ∧ Y.height = Cr.height)
    (hi : i < 3)
    (hout : rawCombo M off Y Cb Cr i x y < 0 ∨
            255 < rawCombo M off Y Cb Cr i x y) :
    ∃ img, transform Y Cb Cr M off = .ok img ∧
      img.sampleAt i x y = rawCombo M off Y Cb Cr i x y := by
  refine ⟨_, transform_eq_ok Y Cb Cr M off h, ?_⟩
  interval_cases i <;> simp [MultiBandImage.sampleAt]

/-- Witness for C7: equal-size constant planes Y=16, Cb=128, Cr=255 make
the G band value `-0.714136 * 127 < 0`, and it is returned unchanged. -/
theorem transform_unclamped_out_of_range_witness :
    ((constPlane 4 4 16).width = (constPlane 4 4 (128:ℚ)).width ∧
     (constPlane 4 4 16).height = (constPlane 4 4 (128:ℚ)).height ∧
     (constPlane 4 4 16).width = (constPlane 4 4 (255:ℚ)).width ∧
     (constPlane 4 4 16).height = (constPlane 4 4 (255:ℚ)).height) ∧
    1 < 3 ∧
    (rawCombo ycc2rgb [16, 128, 128]
        (constPlane 4 4 16) (constPlane 4 4 128) (constPlane 4 4 255) 1 0 0 < 0 ∨
      255 < rawCombo ycc2rgb [16, 128, 128]
        (constPlane 4 4 16) (constPlane 4 4 128) (constPlane 4 4 255) 1 0 0) ∧
    ∃ img, transform (constPlane 4 4 16) (constPlane 4 4 128) (constPlane 4 4 255)
        ycc2rgb [16, 128, 128] = .ok img ∧
      img.sampleAt 1 0 0 = rawCombo ycc2rgb [16, 128, 128]
        (constPlane 4 4 16) (constPlane 4 4 128) (constPlane 4 4 255) 1 0 0 :=
  ⟨⟨rfl, rfl, rfl, rfl⟩, by norm_num,
   Or.inl (by norm_num [rawCombo, mEntry, ycc2rgb, constPlane]),
   transform_unclamped_out_of_range _ _ _ _ _ 1 0 0 ⟨rfl, rfl, rfl, rfl⟩
     (by norm_num)
     (Or.inl (by norm_num [rawCombo, mEntry, ycc2rgb, constPlane]))⟩

/-- C8: for every valid input, the transform's result is a 3-band image of
the same width and height as the input planes, tagged with the sRGB
interpretation, and each output band `i` is the matrix row `i` applied to
the level-shifted planes interleaved in the fixed order `[Y, Cb, Cr]`. -/
theorem transform_three_bands_srgb (Y Cb Cr : Plane)
    (M : List (List ℚ)) (off : List ℚ)
    (h : Y.width = Cb.width ∧ Y.height = Cb.height ∧
         Y.width = Cr.width ∧ Y.height = Cr.height) :
    ∃ img, transform Y Cb Cr M off = .ok img ∧
      img.bands.length = 3 ∧
      img.width = Y.width ∧ img.height = Y.height ∧
      img.interpretation = .srgb ∧
      ∀ i x y, i < 3 → img.sampleAt i x y =
        mEntry M i 0 * (Y.data x y - off.getD 0 0) +
        mEntry M i 1 * (Cb.data x y - off.getD 1 0) +
        mEntry M i 2 * (Cr.data x y - off.getD 2 0) := by
  refine ⟨_, transform_eq_ok Y Cb Cr M off h, rfl, rfl, rfl, rfl, ?_⟩
  intro i x y hi
  interval_cases i <;> simp [MultiBandImage.sampleAt, rawCombo]

/-- Witness for C8: three copies of the concrete plane `tp` with the
standard matrix and offsets. -/
theorem transform_three_bands_srgb_witness :
    (tp.width = tp.width ∧ tp.height = tp.height ∧
     tp.width = tp.width ∧ tp.height = tp.height) ∧
    ∃ img, transform tp tp tp ycc2rgb [16, 128, 128] = .ok img ∧
      img.bands.length = 3 ∧
      img.width = tp.width ∧ img.height = tp.height ∧
      img.interpretation = .srgb ∧
      ∀ i x y, i < 3 → img.sampleAt i x y =
        mEntry ycc2rgb i 0 * (tp.data x y - [(16:ℚ), 128, 128].getD 0 0) +
        mEntry ycc2rgb i 1 * (tp.data x y - [(16:ℚ), 128, 128].getD 1 0) +
        mEntry ycc2rgb i 2 * (tp.data x y - [(16:ℚ), 128, 128].getD 2 0) :=
  ⟨⟨rfl, rfl, rfl, rfl⟩,
   transform_three_bands_srgb tp tp tp ycc2rgb [16, 128, 128]
     ⟨rfl, rfl, rfl, rfl⟩⟩

/-- C9 (code bug): the script's benchmark harness passes `try2` to both
`bench` invocations — also to the second one, whose message is
"plus write_to_binary" — so the serialized-binary path `try3` is never
executed. -/
theorem bench_second_invocation_runs_try2 :
    (benchCalls.getD 1 ("", PipelineFn.fnTry3)).2 = PipelineFn.fnTry2 ∧
    benchCalls.map Prod.snd = [PipelineFn.fnTry2, PipelineFn.fnTry2] ∧
    PipelineFn.fnTry2 ≠ PipelineFn.fnTry3 :=
  ⟨rfl, rfl, by decide⟩

/-- C10: `try3` computes exactly the pixel data of `try2` and differs only
by serializing that result afterward: on every input triple, `try3` returns
the serialization of the very image `try2` returns (and fails exactly when
`try2` fails). -/
theorem try3_serializes_try2 (Y Cb Cr : Plane) :
    try3 Y Cb Cr = Except.map serializeImage (try2 Y Cb Cr) := by
  simp only [try2, try3]
  cases htr : transform Y (upsample Cb subsample) (upsample Cr subsample)
      ycc2rgb [16, 128, 128] <;> rfl
